import Mathlib

/-
Verification of the memory scanning and editing engine in
src/thing/MemoryEditor.py (class MemoryEditor), via a shallow embedding.

Modelling conventions:
* Bytes are natural numbers below 256; byte strings are lists of such numbers.
* Python floats are modelled by their IEEE-754 bit pattern at the width of
  the kind they are packed with: a float used with kind "float" is carried as
  its 32-bit pattern, with kind "double" as its 64-bit pattern.  struct.pack
  with format "<f" or "<d" writes exactly those pattern bytes little-endian,
  and struct.unpack reads them back, so the embedding is bit-exact for values
  representable at that width.
* Target-process memory is a function from absolute addresses to Option byte
  (none meaning the address is not readable); ReadProcessMemory succeeds only
  when every requested byte is readable, mirroring the check
  success and bytes_read.value == size in MemoryEditor.read_memory.
* The VirtualQueryEx walk of scan_memory is modelled by a list of regions,
  the successive answers of the OS region query in ascending base order; an
  exhausted list models the query returning 0.
* Python exceptions become an explicit error type PyErr: ValueError with its
  message, struct.error and TypeError collapsed to structError, and
  UnboundLocalError with the name of the local read before assignment.
-/

/-! ## Little-endian byte codec (struct.pack / struct.unpack, "<" formats) -/

/-- Little-endian byte list of n at the given width, the layout written by
struct.pack with formats "<i", "<q", "<f", "<d" (applied to the unsigned
reinterpretation of the packed value). -/
def natToLE (n : Nat) : Nat → List Nat
  | 0 => []
  | w + 1 => (n % 256) :: natToLE (n / 256) w

/-- Reassemble a little-endian byte list into a natural number, the unsigned
reinterpretation read by struct.unpack. -/
def leToNat : List Nat → Nat
  | [] => 0
  | b :: bs => b + 256 * leToNat bs

theorem natToLE_length (n w : Nat) : (natToLE n w).length = w := by
  induction w generalizing n with
  | zero => rfl
  | succ w ih => simp [natToLE, ih]

theorem leToNat_natToLE (n w : Nat) (h : n < 256 ^ w) :
    leToNat (natToLE n w) = n := by
  induction w generalizing n with
  | zero =>
    simp [natToLE, leToNat]
    omega
  | succ w ih =>
    have hdiv : n / 256 < 256 ^ w := by
      have : n < 256 ^ w * 256 := by
        have := h
        rw [pow_succ] at this
        exact this
      exact Nat.div_lt_of_lt_mul (by omega)
    simp [natToLE, leToNat, ih _ hdiv]
    omega

/-- Two's-complement little-endian bytes of an integer at width w, the bytes
struct.pack produces for an in-range signed integer. -/
def packIntLE (v : Int) (w : Nat) : List Nat :=
  natToLE (v % ((2 : Int) ^ (8 * w))).toNat w

/-- Signed reinterpretation of an unsigned value, as struct.unpack performs
for the signed formats: values at or above half the range wrap negative. -/
def unsignedToSigned (u half full : Nat) : Int :=
  if u < half then (u : Int) else (u : Int) - (full : Int)

deriving instance DecidableEq for Except

/-! ## Values, errors and the value-kind dispatch -/

/-- A Python value handed to the engine: an int, or a float carried as its
IEEE-754 bit pattern at the width of the kind it is used with. -/
inductive PyVal
  | int (v : Int)
  | f32 (bits : Nat)
  | f64 (bits : Nat)
deriving DecidableEq

/-- Python exceptions raised by the engine paths under study. -/
inductive PyErr
  | valueError (msg : String)
  | structError
  | unboundLocalError (localName : String)
deriving DecidableEq

/-- Outcome of the value_type dispatch chain shared by scan_memory
(lines 114-130), filter_addresses (lines 190-204) and modify_value
(lines 221-232): the packed bytes and width, or the reason the chain did not
produce them. -/
inductive PackResult
  | ok (search_bytes : List Nat) (size : Nat)
  | unsupported
  | packError
deriving DecidableEq

/-- The elif chain converting (value, value_type) to search_bytes and size.
Source: MemoryEditor.scan_memory lines 114-129 (the same chain appears in
filter_addresses and modify_value; only the handling of the final else
differs between callers).  struct.pack raises struct.error on an
out-of-range integer, hence the range guards; bytes([value and 0xFF]) masks
to one byte and never range-errors on an int.  unsupported marks falling off
the end of the chain. -/
def packValue (value : PyVal) (value_type : String) : PackResult :=
  if value_type = "int32" then
    match value with
    | .int v =>
      if -2147483648 ≤ v ∧ v < 2147483648 then .ok (packIntLE v 4) 4 else .packError
    | _ => .packError
  else if value_type = "int64" then
    match value with
    | .int v =>
      if -9223372036854775808 ≤ v ∧ v < 9223372036854775808 then .ok (packIntLE v 8) 8
      else .packError
    | _ => .packError
  else if value_type = "float" then
    match value with
    | .f32 bits => .ok (natToLE bits 4) 4
    | _ => .packError
  else if value_type = "double" then
    match value with
    | .f64 bits => .ok (natToLE bits 8) 8
    | _ => .packError
  else if value_type = "byte" then
    match value with
    | .int v => .ok [(v % 256).toNat] 1
    | _ => .packError
  else .unsupported

/-- The elif chain of read_value (lines 241-255) choosing size and
struct format; none models falling off the chain with size and fmt left
unassigned. -/
def readSizeFmt (value_type : String) : Option (Nat × String) :=
  if value_type = "int32" then some (4, "<i")
  else if value_type = "int64" then some (8, "<q")
  else if value_type = "float" then some (4, "<f")
  else if value_type = "double" then some (8, "<d")
  else if value_type = "byte" then some (1, "B")
  else none

/-- struct.unpack(fmt, data)[0] for the five formats produced by readSizeFmt.
The final fallback is unreachable: read_value only reaches the unpack with a
format delivered by readSizeFmt. -/
def unpackVal (fmt : String) (data : List Nat) : PyVal :=
  if fmt = "<i" then .int (unsignedToSigned (leToNat data) 2147483648 4294967296)
  else if fmt = "<q" then
    .int (unsignedToSigned (leToNat data) 9223372036854775808 18446744073709551616)
  else if fmt = "<f" then .f32 (leToNat data)
  else if fmt = "<d" then .f64 (leToNat data)
  else if fmt = "B" then .int (leToNat data)
  else .int 0

/-- The supported value_type strings (scan_memory docstring, line 107). -/
def SUPPORTED_TYPES : List String := ["int32", "int64", "float", "double", "byte"]

/-- Fixed encoded width of each supported kind (4, 8, 4, 8, 1). -/
def kindWidth (value_type : String) : Nat :=
  if value_type = "int32" then 4
  else if value_type = "int64" then 8
  else if value_type = "float" then 4
  else if value_type = "double" then 8
  else if value_type = "byte" then 1
  else 0

/-- A value is representable in a kind when struct.pack accepts it at that
kind without error and without loss: int32 and int64 within their signed
ranges, byte within 0..255, floats any bit pattern of the width. -/
def representable (v : PyVal) (value_type : String) : Bool :=
  if value_type = "int32" then
    match v with
    | .int i => decide (-2147483648 ≤ i ∧ i < 2147483648)
    | _ => false
  else if value_type = "int64" then
    match v with
    | .int i => decide (-9223372036854775808 ≤ i ∧ i < 9223372036854775808)
    | _ => false
  else if value_type = "float" then
    match v with
    | .f32 b => decide (b < 4294967296)
    | _ => false
  else if value_type = "double" then
    match v with
    | .f64 b => decide (b < 18446744073709551616)
    | _ => false
  else if value_type = "byte" then
    match v with
    | .int i => decide (0 ≤ i ∧ i < 256)
    | _ => false
  else false

/-! ## Session state and raw memory primitives -/

/-- The mutable state of a MemoryEditor instance that the engine operations
touch: the process handle (some () when a process is open, none after
close_process or before open_process), the candidate addresses of the last
scan, and the active value type.  pid and process_name are display-only and
omitted. -/
structure EditorState where
  process_handle : Option Unit
  found_addresses : List Nat
  value_type : String
deriving DecidableEq

/-- Read size bytes starting at addr from the target process memory, all or
nothing: some list exactly when every byte in the range is readable. -/
def readBytesFrom (mem : Nat → Option Nat) (addr : Nat) : Nat → Option (List Nat)
  | 0 => some []
  | k + 1 =>
    match mem addr, readBytesFrom mem (addr + 1) k with
    | some b, some bs => some (b :: bs)
    | _, _ => none

/-- MemoryEditor.read_memory (lines 72-87): ReadProcessMemory through the
stored handle; returns the buffer only when the call succeeds and
bytes_read == size, else None.  A null handle (closed session) makes the OS
call fail, so the result is none. -/
def read_memory (handle : Option Unit) (mem : Nat → Option Nat)
    (address size : Nat) : Option (List Nat) :=
  match handle with
  | none => none
  | some _ => readBytesFrom mem address size

/-- MemoryEditor.write_memory (lines 89-102): WriteProcessMemory through the
stored handle; wr models whether the OS accepts the write of the given data
at the given address; a null handle always fails, giving False. -/
def write_memory (st : EditorState) (wr : Nat → List Nat → Bool)
    (address : Nat) (data : List Nat) : Bool :=
  match st.process_handle with
  | none => false
  | some _ => wr address data

/-- MemoryEditor.close_process (lines 66-70): if a handle is held, close it
and null the field; otherwise do nothing. -/
def close_process (st : EditorState) : EditorState :=
  match st.process_handle with
  | some _ => { st with process_handle := none }
  | none => st

/-! ## Region walk and scan -/

/-- Region descriptor returned by VirtualQueryEx (fields used by the scan). -/
structure MEMORY_BASIC_INFORMATION where
  BaseAddress : Nat
  RegionSize : Nat
  State : Nat
  Protect : Nat
deriving DecidableEq

def MEM_COMMIT : Nat := 0x1000
def PAGE_READONLY : Nat := 0x02
def PAGE_READWRITE : Nat := 0x04
def PAGE_WRITECOPY : Nat := 0x08
def PAGE_EXECUTE_READ : Nat := 0x20
def PAGE_EXECUTE_READWRITE : Nat := 0x40

/-- Upper bound of the scanned address range: the loop condition
address < 0x7FFFFFFF0000 (line 140). -/
def SCAN_ADDRESS_LIMIT : Nat := 0x7FFFFFFF0000

/-- Chunk ceiling of a single region read:
region_size = min(mbi.RegionSize, 10 * 1024 * 1024) (line 159). -/
def CHUNK_CAP : Nat := 10 * 1024 * 1024

/-- Readability test of lines 153-156: committed state and a protection in
the readable list. -/
def regionReadable (mbi : MEMORY_BASIC_INFORMATION) : Bool :=
  mbi.State == MEM_COMMIT &&
    [PAGE_READONLY, PAGE_READWRITE, PAGE_WRITECOPY,
      PAGE_EXECUTE_READ, PAGE_EXECUTE_READWRITE].contains mbi.Protect

/-- Python slice data[off : off + len] on a byte list. -/
def pySlice (data : List Nat) (off len : Nat) : List Nat :=
  (data.drop off).take len

/-- The inner search loop of scan_memory (lines 164-169): offset runs from 0
while offset < len(data) - size, stride 1, and each offset whose size-byte
slice equals search_bytes is recorded.  Note the strict bound: the final
offset len(data) - size is never tested. -/
def searchOffsets (data search_bytes : List Nat) (size : Nat) : List Nat :=
  (List.range (data.length - size)).filter
    (fun offset => pySlice data offset size == search_bytes)

/-- Matches contributed by one region (lines 153-173): skipped when not
readable, read capped at CHUNK_CAP, skipped when the read fails, otherwise
the found offsets shifted by the region base. -/
def regionHits (handle : Option Unit) (mem : Nat → Option Nat)
    (search_bytes : List Nat) (size : Nat)
    (mbi : MEMORY_BASIC_INFORMATION) : List Nat :=
  if regionReadable mbi then
    match read_memory handle mem mbi.BaseAddress (min mbi.RegionSize CHUNK_CAP) with
    | some data =>
      (searchOffsets data search_bytes size).map (fun offset => mbi.BaseAddress + offset)
    | none => []
  else []

/-- The VirtualQueryEx walk (lines 140-175): before each query the running
address, initially 0 and afterwards the end of the region just processed, is
checked against the user-mode limit; an exhausted region list models the
query returning 0 and breaking the loop. -/
def scanRegions (handle : Option Unit) (mem : Nat → Option Nat)
    (search_bytes : List Nat) (size : Nat) :
    List MEMORY_BASIC_INFORMATION → Nat → List Nat
  | [], _ => []
  | mbi :: rest, address =>
    if address < SCAN_ADDRESS_LIMIT then
      regionHits handle mem search_bytes size mbi ++
        scanRegions handle mem search_bytes size rest (mbi.BaseAddress + mbi.RegionSize)
    else []

/-- MemoryEditor.scan_memory (lines 104-178).  found_addresses is emptied and
value_type overwritten first (lines 110-111); then the dispatch runs, an
unsupported type raising ValueError (line 130); then the region walk fills
found_addresses. -/
def scan_memory (st : EditorState) (mem : Nat → Option Nat)
    (regions : List MEMORY_BASIC_INFORMATION) (value : PyVal)
    (value_type : String) : Except PyErr (List Nat) × EditorState :=
  let st1 : EditorState := { st with found_addresses := [], value_type := value_type }
  match packValue value value_type with
  | .unsupported =>
    (.error (.valueError ("Unsupported value type: " ++ value_type)), st1)
  | .packError => (.error .structError, st1)
  | .ok search_bytes size =>
    let found := scanRegions st1.process_handle mem search_bytes size regions 0
    (.ok found, { st1 with found_addresses := found })

/-! ## Filter, modify, read, freeze -/

/-- MemoryEditor.filter_addresses (lines 180-214).  An empty candidate list
returns [] at once (lines 182-183) without touching the dispatch.  The
dispatch chain has no else branch, so an unsupported type leaves size (and
search_bytes) unassigned and the first loop iteration raises
UnboundLocalError on size (line 208).  Candidates are kept when the re-read
succeeds, is non-empty (Python truthiness of data) and equals search_bytes;
the kept list replaces found_addresses (line 212); value_type is never
written. -/
def filter_addresses (st : EditorState) (mem : Nat → Option Nat)
    (value : PyVal) (value_type : Option String) :
    Except PyErr (List Nat) × EditorState :=
  if st.found_addresses = [] then (.ok [], st)
  else
    let vt := value_type.getD st.value_type
    match packValue value vt with
    | .unsupported => (.error (.unboundLocalError "size"), st)
    | .packError => (.error .structError, st)
    | .ok search_bytes size =>
      let filtered := st.found_addresses.filter (fun address =>
        match read_memory st.process_handle mem address size with
        | some data => !data.isEmpty && data == search_bytes
        | none => false)
      (.ok filtered, { st with found_addresses := filtered })

/-- MemoryEditor.modify_value (lines 216-234): pack the value (ValueError on
an unsupported type, line 232) and write it; the Bool is the write_memory
outcome. -/
def modify_value (st : EditorState) (wr : Nat → List Nat → Bool)
    (address : Nat) (value : PyVal) (value_type : Option String) :
    Except PyErr Bool :=
  let vt := value_type.getD st.value_type
  match packValue value vt with
  | .unsupported => .error (.valueError ("Unsupported value type: " ++ vt))
  | .packError => .error .structError
  | .ok data _ => .ok (write_memory st wr address data)

/-- MemoryEditor.read_value (lines 236-260): choose size and fmt (no else
branch: an unsupported type raises UnboundLocalError on size at the
read_memory call, line 257), read, and unpack; a failed or empty read gives
None. -/
def read_value (st : EditorState) (mem : Nat → Option Nat)
    (address : Nat) (value_type : Option String) :
    Except PyErr (Option PyVal) :=
  let vt := value_type.getD st.value_type
  match readSizeFmt vt with
  | none => .error (.unboundLocalError "size")
  | some (size, fmt) =>
    match read_memory st.process_handle mem address size with
    | some data => if data.isEmpty then .ok none else .ok (some (unpackVal fmt data))
    | none => .ok none

/-- The tick schedule of the freeze loop of MemoryEditor.freeze_value
(lines 273-280), with wall time discretized into ticks of the sleep interval
(0.1 s): tick i is entered while i is below the duration in ticks, a
KeyboardInterrupt observed at tick i stops the loop before the write of that
tick, and otherwise the tick performs one write and the loop moves on.
Returns the tick indices at which a write is performed. -/
def freeze_ticks (cancel : Nat → Bool) : Nat → Nat → List Nat
  | 0, _ => []
  | fuel + 1, i => if cancel i then [] else i :: freeze_ticks cancel fuel (i + 1)

/-- MemoryEditor.freeze_value (lines 262-280): modify_value is called once
per tick with the same value and type, its Boolean result discarded (a failed
write does not stop the loop); only duration expiry or KeyboardInterrupt
stops it.  An unsupported type makes the first modify_value raise, which
propagates (only KeyboardInterrupt is caught).  Returns the per-tick write
events (tick index, write_memory outcome), the write acceptance wr indexed by
tick to let the target stall transiently. -/
def freeze_value (st : EditorState) (wr : Nat → Nat → List Nat → Bool)
    (cancel : Nat → Bool) (address : Nat) (value : PyVal)
    (value_type : Option String) (durationTicks : Nat) :
    Except PyErr (List (Nat × Bool)) :=
  let vt := value_type.getD st.value_type
  match packValue value vt with
  | .unsupported => .error (.valueError ("Unsupported value type: " ++ vt))
  | .packError => .error .structError
  | .ok data _ =>
    .ok ((freeze_ticks cancel durationTicks 0).map
      (fun i => (i, write_memory st (wr i) address data)))

/-- Memory whose readable bytes are exactly the given byte list laid out from
base, every other address unreadable. -/
def memOfBytes (base : Nat) (bytes : List Nat) : Nat → Option Nat :=
  fun a => if base ≤ a then bytes[a - base]? else none

/-! ## Helper lemmas -/

theorem readBytesFrom_length (mem : Nat → Option Nat) (addr k : Nat)
    (l : List Nat) (h : readBytesFrom mem addr k = some l) : l.length = k := by
  induction k generalizing addr l with
  | zero =>
    simp [readBytesFrom] at h
    simp [← h]
  | succ k ih =>
    unfold readBytesFrom at h
    cases hb : mem addr with
    | none => simp [hb] at h
    | some b =>
      cases hrest : readBytesFrom mem (addr + 1) k with
      | none => simp [hb, hrest] at h
      | some bs =>
        simp [hb, hrest] at h
        simp [← h, ih (addr + 1) bs hrest]

theorem readBytesFrom_congr (mem mem' : Nat → Option Nat) (k addr : Nat)
    (h : ∀ i, i < k → mem (addr + i) = mem' (addr + i)) :
    readBytesFrom mem addr k = readBytesFrom mem' addr k := by
  induction k generalizing addr with
  | zero => rfl
  | succ k ih =>
    have h0 : mem addr = mem' addr := by
      have := h 0 (by omega)
      simpa using this
    have hrest : readBytesFrom mem (addr + 1) k = readBytesFrom mem' (addr + 1) k := by
      apply ih
      intro i hi
      have := h (i + 1) (by omega)
      rw [show addr + (i + 1) = addr + 1 + i by omega] at this
      exact this
    unfold readBytesFrom
    rw [h0, hrest]

/-- With every region end below the address limit, the walk visits every
region in the list and the bound check never trips. -/
theorem scanRegions_eq_join (handle : Option Unit) (mem : Nat → Option Nat)
    (search_bytes : List Nat) (size : Nat)
    (l : List MEMORY_BASIC_INFORMATION) (a : Nat)
    (hb : ∀ r ∈ l, r.BaseAddress + r.RegionSize < SCAN_ADDRESS_LIMIT)
    (ha : a < SCAN_ADDRESS_LIMIT) :
    scanRegions handle mem search_bytes size l a =
      (l.map (regionHits handle mem search_bytes size)).flatten := by
  induction l generalizing a with
  | nil => simp [scanRegions]
  | cons r rest ih =>
    have hr : r.BaseAddress + r.RegionSize < SCAN_ADDRESS_LIMIT :=
      hb r (List.mem_cons_self r rest)
    have hrest : ∀ s ∈ rest, s.BaseAddress + s.RegionSize < SCAN_ADDRESS_LIMIT :=
      fun s hs => hb s (List.mem_cons_of_mem r hs)
    simp [scanRegions, ha, ih _ hrest hr]

/-- Membership in the freeze tick schedule: exactly the ticks inside the
window that no earlier-or-equal tick cancelled. -/
theorem mem_freeze_ticks (cancel : Nat → Bool) (fuel start i : Nat) :
    i ∈ freeze_ticks cancel fuel start ↔
      start ≤ i ∧ i < start + fuel ∧
        ∀ j, start ≤ j → j ≤ i → cancel j = false := by
  induction fuel generalizing start with
  | zero =>
    simp [freeze_ticks]
    omega
  | succ fuel ih =>
    unfold freeze_ticks
    cases hc : cancel start with
    | true =>
      simp
      intro h1 h2
      exact ⟨start, le_refl _, h1, hc⟩
    | false =>
      simp [ih]
      constructor
      · rintro (rfl | ⟨h1, h2, h3⟩)
        · exact ⟨le_refl _, by omega, fun j hj1 hj2 => by
            have : j = i := by omega
            subst this
            exact hc⟩
        · exact ⟨by omega, by omega, fun j hj1 hj2 => by
            by_cases hj : j = start
            · subst hj; exact hc
            · exact h3 j (by omega) hj2⟩
      · rintro ⟨h1, h2, h3⟩
        by_cases hi : i = start
        · exact Or.inl hi
        · exact Or.inr ⟨by omega, by omega, fun j hj1 hj2 => h3 j (by omega) hj2⟩

/-! ## Round-trip arithmetic lemmas -/

theorem roundtrip_i32 (i : Int) (h1 : -2147483648 ≤ i) (h2 : i < 2147483648) :
    unsignedToSigned (leToNat (packIntLE i 4)) 2147483648 4294967296 = i := by
  have h2pow : ((2 : Int) ^ (8 * 4)) = 4294967296 := by norm_num
  have hmod1 : (0 : Int) ≤ i % 4294967296 := by omega
  have hmod2 : i % 4294967296 < 4294967296 := by omega
  have hu : ((i % ((2 : Int) ^ (8 * 4))).toNat : Int) = i % 4294967296 := by
    rw [h2pow]; exact Int.toNat_of_nonneg hmod1
  have h256 : (256 : Nat) ^ 4 = 4294967296 := by norm_num
  have hultn : (i % ((2 : Int) ^ (8 * 4))).toNat < 256 ^ 4 := by
    rw [h256]; omega
  unfold packIntLE
  rw [leToNat_natToLE _ _ hultn]
  unfold unsignedToSigned
  split <;> omega

theorem roundtrip_i64 (i : Int) (h1 : -9223372036854775808 ≤ i)
    (h2 : i < 9223372036854775808) :
    unsignedToSigned (leToNat (packIntLE i 8)) 9223372036854775808
      18446744073709551616 = i := by
  have h2pow : ((2 : Int) ^ (8 * 8)) = 18446744073709551616 := by norm_num
  have hmod1 : (0 : Int) ≤ i % 18446744073709551616 := by omega
  have hmod2 : i % 18446744073709551616 < 18446744073709551616 := by omega
  have hu : ((i % ((2 : Int) ^ (8 * 8))).toNat : Int) = i % 18446744073709551616 := by
    rw [h2pow]; exact Int.toNat_of_nonneg hmod1
  have h256 : (256 : Nat) ^ 8 = 18446744073709551616 := by norm_num
  have hultn : (i % ((2 : Int) ^ (8 * 8))).toNat < 256 ^ 8 := by
    rw [h256]; omega
  unfold packIntLE
  rw [leToNat_natToLE _ _ hultn]
  unfold unsignedToSigned
  split <;> omega

/-! ## Claims -/

/-- C1 (code_bug evidence): the Int32 pattern for 100 occurs at offset 0 of a
four-byte committed readable region (the slice at offset 0 equals the encoded
pattern), yet scan_memory reports no candidate: the search loop condition
offset < len(data) - size (line 165) never tests the final offset
len(data) - size, so an occurrence whose last byte is the last byte of the
chunk is dropped, contradicting the claim that every occurrence is
recorded. -/
theorem C1_tail_occurrence_missed :
    packValue (PyVal.int 100) "int32" = .ok [100, 0, 0, 0] 4 ∧
    pySlice [100, 0, 0, 0] 0 4 = [100, 0, 0, 0] ∧
    (scan_memory ⟨some (), [], "int32"⟩ (memOfBytes 4096 [100, 0, 0, 0])
        [⟨4096, 4, MEM_COMMIT, PAGE_READWRITE⟩] (PyVal.int 100) "int32").1 =
      .ok [] := by
  decide

/-- C3: whatever the candidate set, the filter value, the explicit kind and
the state of target memory (read failures included), filtering never grows
the candidate set: the resulting found_addresses count is at most the
input count. -/
theorem C3_filter_monotonic (st : EditorState) (mem : Nat → Option Nat)
    (value : PyVal) (value_type : Option String) :
    (filter_addresses st mem value value_type).2.found_addresses.length ≤
      st.found_addresses.length := by
  unfold filter_addresses
  by_cases h : st.found_addresses = []
  · simp [h]
  · rw [if_neg h]
    cases hp : packValue value (value_type.getD st.value_type) with
    | ok search_bytes size =>
      simp only [hp]
      exact List.length_filter_le _ _
    | unsupported => simp [hp]
    | packError => simp [hp]

/-- C2: for every supported kind and every value representable in it (bytes
0..255, ints in their signed ranges, floats bit-exact via their patterns),
the pack dispatch succeeds with exactly the fixed width of the kind
(4, 8, 4, 8, 1 bytes, little-endian by construction of natToLE), read_value
would read that same width, and unpacking the packed bytes returns the value
unchanged: decode(encode(v, k), k) = v.  Both directions are Lean functions,
hence deterministic. -/
theorem C2_codec_roundtrip (v : PyVal) (vt : String)
    (h : representable v vt = true) :
    ∃ b fmt, packValue v vt = .ok b (kindWidth vt) ∧
      b.length = kindWidth vt ∧
      readSizeFmt vt = some (kindWidth vt, fmt) ∧
      unpackVal fmt b = v := by
  unfold representable at h
  by_cases e1 : vt = "int32"
  · subst e1
    cases v with
    | int i =>
      rw [if_pos rfl] at h
      have hr : -2147483648 ≤ i ∧ i < 2147483648 := by
        simpa using h
      refine ⟨packIntLE i 4, "<i", ?_, ?_, ?_, ?_⟩
      · unfold packValue
        rw [if_pos rfl]
        simp [hr.1, hr.2, kindWidth]
      · simp [kindWidth, packIntLE, natToLE_length]
      · simp [readSizeFmt, kindWidth]
      · simp [unpackVal, roundtrip_i32 i hr.1 hr.2]
    | f32 b => simp at h
    | f64 b => simp at h
  · rw [if_neg e1] at h
    by_cases e2 : vt = "int64"
    · subst e2
      cases v with
      | int i =>
        rw [if_pos rfl] at h
        have hr : -9223372036854775808 ≤ i ∧ i < 9223372036854775808 := by
          simpa using h
        refine ⟨packIntLE i 8, "<q", ?_, ?_, ?_, ?_⟩
        · unfold packValue
          rw [if_neg (by decide), if_pos rfl]
          simp [hr.1, hr.2, kindWidth]
        · simp [kindWidth, packIntLE, natToLE_length]
        · simp [readSizeFmt, kindWidth]
        · simp [unpackVal, roundtrip_i64 i hr.1 hr.2]
      | f32 b => simp at h
      | f64 b => simp at h
    · rw [if_neg e2] at h
      by_cases e3 : vt = "float"
      · subst e3
        cases v with
        | int i => simp at h
        | f32 bits =>
          rw [if_pos rfl] at h
          have hr : bits < 4294967296 := by simpa using h
          refine ⟨natToLE bits 4, "<f", ?_, ?_, ?_, ?_⟩
          · unfold packValue
            rw [if_neg (by decide), if_neg (by decide), if_pos rfl]
            simp [kindWidth]
          · simp [kindWidth, natToLE_length]
          · simp [readSizeFmt, kindWidth]
          · have h256 : (256 : Nat) ^ 4 = 4294967296 := by norm_num
            simp [unpackVal, leToNat_natToLE bits 4 (by rw [h256]; omega)]
        | f64 b => simp at h
      · rw [if_neg e3] at h
        by_cases e4 : vt = "double"
        · subst e4
          cases v with
          | int i => simp at h
          | f32 b => simp at h
          | f64 bits =>
            rw [if_pos rfl] at h
            have hr : bits < 18446744073709551616 := by simpa using h
            refine ⟨natToLE bits 8, "<d", ?_, ?_, ?_, ?_⟩
            · unfold packValue
              rw [if_neg (by decide), if_neg (by decide), if_neg (by decide),
                if_pos rfl]
              simp [kindWidth]
            · simp [kindWidth, natToLE_length]
            · simp [readSizeFmt, kindWidth]
            · have h256 : (256 : Nat) ^ 8 = 18446744073709551616 := by norm_num
              simp [unpackVal, leToNat_natToLE bits 8 (by rw [h256]; omega)]
        · rw [if_neg e4] at h
          by_cases e5 : vt = "byte"
          · subst e5
            cases v with
            | int i =>
              rw [if_pos rfl] at h
              have hr : 0 ≤ i ∧ i < 256 := by simpa using h
              refine ⟨[(i % 256).toNat], "B", ?_, ?_, ?_, ?_⟩
              · unfold packValue
                rw [if_neg (by decide), if_neg (by decide), if_neg (by decide),
                  if_neg (by decide), if_pos rfl]
                simp [kindWidth]
              · simp [kindWidth]
              · simp [readSizeFmt, kindWidth]
              · unfold unpackVal
                rw [if_neg (by decide), if_neg (by decide), if_neg (by decide),
                  if_neg (by decide), if_pos rfl]
                unfold leToNat leToNat
                simp only [PyVal.int.injEq]
                omega
            | f32 b => simp at h
            | f64 b => simp at h
          · rw [if_neg e5] at h
            simp at h

/-- C2 witness: the round trip at the concrete int32 value 100. -/
theorem C2_codec_roundtrip_witness :
    representable (PyVal.int 100) "int32" = true ∧
    ∃ b fmt, packValue (PyVal.int 100) "int32" = .ok b (kindWidth "int32") ∧
      b.length = kindWidth "int32" ∧
      readSizeFmt "int32" = some (kindWidth "int32", fmt) ∧
      unpackVal fmt b = PyVal.int 100 :=
  ⟨by decide, C2_codec_roundtrip (PyVal.int 100) "int32" (by decide)⟩

/-- C4 counterexample: filtering a non-empty candidate set with the
unsupported kind "int16" does not surface a typed unsupported-value-kind
error; the dispatch chain of filter_addresses has no else branch, so the
first loop iteration dies on the unassigned local size — an untyped
UnboundLocalError, not the ValueError the scan path raises. -/
theorem C4_filter_untyped_crash :
    (filter_addresses ⟨some (), [0], "int32"⟩ (fun _ => none) (PyVal.int 5)
        (some "int16")).1 = .error (.unboundLocalError "size") ∧
    (filter_addresses ⟨some (), [0], "int32"⟩ (fun _ => none) (PyVal.int 5)
        (some "int16")).1 ≠
      .error (.valueError "Unsupported value type: int16") := by
  decide

/-- C4 (amended): with a kind outside the five supported ones, scan and
modify fail with the typed ValueError "Unsupported value type: ...", but
filter on a non-empty candidate set and read instead crash with an untyped
UnboundLocalError on the local size, because their dispatch chains have no
else branch; filter on an empty candidate set returns [] without validating
the kind at all. -/
theorem C4_unsupported_kind_behaviour (st : EditorState)
    (mem : Nat → Option Nat) (wr : Nat → List Nat → Bool)
    (regions : List MEMORY_BASIC_INFORMATION) (value : PyVal) (vt : String)
    (address : Nat) (h : vt ∉ SUPPORTED_TYPES) :
    (scan_memory st mem regions value vt).1 =
      .error (.valueError ("Unsupported value type: " ++ vt)) ∧
    modify_value st wr address value (some vt) =
      .error (.valueError ("Unsupported value type: " ++ vt)) ∧
    (st.found_addresses ≠ [] →
      (filter_addresses st mem value (some vt)).1 =
        .error (.unboundLocalError "size")) ∧
    (st.found_addresses = [] →
      filter_addresses st mem value (some vt) = (.ok [], st)) ∧
    read_value st mem address (some vt) = .error (.unboundLocalError "size") := by
  simp only [SUPPORTED_TYPES, List.mem_cons, List.not_mem_nil, or_false,
    not_or] at h
  obtain ⟨h1, h2, h3, h4, h5⟩ := h
  refine ⟨?_, ?_, ?_, ?_, ?_⟩
  · simp [scan_memory, packValue, h1, h2, h3, h4, h5]
  · simp [modify_value, packValue, h1, h2, h3, h4, h5]
  · intro hne
    simp [filter_addresses, hne, packValue, h1, h2, h3, h4, h5]
  · intro he
    simp [filter_addresses, he]
  · simp [read_value, readSizeFmt, h1, h2, h3, h4, h5]

/-- C4 witness: the amended behaviour at the concrete unsupported kind
"int16" with a one-element candidate set. -/
theorem C4_unsupported_kind_behaviour_witness :
    "int16" ∉ SUPPORTED_TYPES ∧
    read_value ⟨some (), [0], "int32"⟩ (fun _ => none) 0 (some "int16") =
      .error (.unboundLocalError "size") :=
  ⟨by decide,
    (C4_unsupported_kind_behaviour ⟨some (), [0], "int32"⟩ (fun _ => none)
      (fun _ _ => true) [] (PyVal.int 5) "int16" 0 (by decide)).2.2.2.2⟩

/-- C7 counterexample: after close_process, read_memory yields the bare
failure value none — exactly the value an ordinary failed read returns on a
live session — so a read on a detached session does fail, but with no
distinguished SessionClosed-typed error anywhere in the result. -/
theorem C7_no_session_closed_error :
    read_memory (close_process ⟨some (), [], "int32"⟩).process_handle
        (fun _ => none) 0 4 = none ∧
    read_memory (⟨some (), [], "int32"⟩ : EditorState).process_handle
        (fun _ => none) 0 4 = none := by
  decide

/-- C7 (amended): close_process is idempotent, and after it the handle is
null, every read_memory returns None and every write_memory returns False —
operations on a detached session fail rather than no-op or return a
success-shaped value — but the failure is the generic untyped None/False,
not a SessionClosed error. -/
theorem C7_detach_idempotent_then_fail (st : EditorState)
    (mem : Nat → Option Nat) (wr : Nat → List Nat → Bool)
    (address n : Nat) (data : List Nat) :
    close_process (close_process st) = close_process st ∧
    (close_process st).process_handle = none ∧
    read_memory (close_process st).process_handle mem address n = none ∧
    write_memory (close_process st) wr address data = false := by
  cases h : st.process_handle <;>
    simp [close_process, read_memory, write_memory, h]

/-- C8 counterexample: with the active kind of the last scan being int32 and
memory at address 100 holding bytes [5, 0, 0, 1], a filter for 5 invoked
with the explicit kind "byte" re-reads one byte and keeps the candidate,
while the default filter (the int32 kind of the set) re-reads four bytes and
drops it — a filter invocation compared under a different kind than the one
set by the last scan, which the claim rules out. -/
theorem C8_filter_explicit_kind_compares_differently :
    (⟨some (), [100], "int32"⟩ : EditorState).value_type = "int32" ∧
    (filter_addresses ⟨some (), [100], "int32"⟩ (memOfBytes 100 [5, 0, 0, 1])
        (PyVal.int 5) (some "byte")).2.found_addresses = [100] ∧
    (filter_addresses ⟨some (), [100], "int32"⟩ (memOfBytes 100 [5, 0, 0, 1])
        (PyVal.int 5) none).2.found_addresses = [] := by
  decide

/-- C8 (amended): filter_addresses never writes value_type, so the stored
active kind of the candidate set is immutable and a filter invoked without an
explicit kind compares exactly under the kind set by the last scan; but the
optional value_type parameter lets a caller compare one filter pass under a
different kind (at that kind's width) without a fresh scan. -/
theorem C8_stored_kind_immutable (st : EditorState) (mem : Nat → Option Nat)
    (value : PyVal) (value_type : Option String) :
    (filter_addresses st mem value value_type).2.value_type = st.value_type ∧
    filter_addresses st mem value none =
      filter_addresses st mem value (some st.value_type) := by
  constructor
  · unfold filter_addresses
    by_cases h : st.found_addresses = []
    · simp [h]
    · rw [if_neg h]
      cases hp : packValue value (value_type.getD st.value_type) <;> simp [hp]
  · rfl

/-- C10: a scan invoked with an unsupported value kind raises after having
emptied found_addresses and overwritten value_type with the unsupported
string (lines 110-111 run before the dispatch of line 130), so the
candidate-set state is clobbered, not left unchanged, on error. -/
theorem C10_scan_clobbers_state (st : EditorState) (mem : Nat → Option Nat)
    (regions : List MEMORY_BASIC_INFORMATION) (value : PyVal)
    (vt : String) (h : vt ∉ SUPPORTED_TYPES) :
    (scan_memory st mem regions value vt).1 =
      .error (.valueError ("Unsupported value type: " ++ vt)) ∧
    (scan_memory st mem regions value vt).2.found_addresses = [] ∧
    (scan_memory st mem regions value vt).2.value_type = vt := by
  simp only [SUPPORTED_TYPES, List.mem_cons, List.not_mem_nil, or_false,
    not_or] at h
  obtain ⟨h1, h2, h3, h4, h5⟩ := h
  simp [scan_memory, packValue, h1, h2, h3, h4, h5]

/-- C10 witness: scanning with the unsupported kind "string" from a state
holding two candidates under int32 errors and leaves the set emptied and the
kind overwritten. -/
theorem C10_scan_clobbers_state_witness :
    "string" ∉ SUPPORTED_TYPES ∧
    (scan_memory ⟨some (), [1, 2], "int32"⟩ (fun _ => none) [] (PyVal.int 7)
        "string").2.found_addresses = [] ∧
    (scan_memory ⟨some (), [1, 2], "int32"⟩ (fun _ => none) [] (PyVal.int 7)
        "string").2.value_type = "string" :=
  ⟨by decide,
    (C10_scan_clobbers_state ⟨some (), [1, 2], "int32"⟩ (fun _ => none) []
      (PyVal.int 7) "string" (by decide)).2⟩

/-- C5: partial I/O is locally absorbed.  During a scan, a region whose read
fails contributes nothing and the scan proceeds over the remaining regions —
the result equals the scan of the region list with the failing region
removed, still a success.  During a filter, the operation returns ok with
the surviving candidates, and a candidate whose re-read fails is dropped. -/
theorem C5_partial_io_absorbed :
    (∀ (st : EditorState) (mem : Nat → Option Nat) (value : PyVal)
        (vt : String) (rs1 rs2 : List MEMORY_BASIC_INFORMATION)
        (r : MEMORY_BASIC_INFORMATION) (search_bytes : List Nat) (size : Nat),
      packValue value vt = .ok search_bytes size →
      (∀ s ∈ rs1 ++ r :: rs2,
        s.BaseAddress + s.RegionSize < SCAN_ADDRESS_LIMIT) →
      read_memory st.process_handle mem r.BaseAddress
        (min r.RegionSize CHUNK_CAP) = none →
      scan_memory st mem (rs1 ++ r :: rs2) value vt =
        scan_memory st mem (rs1 ++ rs2) value vt) ∧
    (∀ (st : EditorState) (mem : Nat → Option Nat) (value : PyVal)
        (value_type : Option String) (a : Nat) (search_bytes : List Nat)
        (size : Nat),
      packValue value (value_type.getD st.value_type) = .ok search_bytes size →
      read_memory st.process_handle mem a size = none →
      (filter_addresses st mem value value_type).1 =
        .ok (filter_addresses st mem value value_type).2.found_addresses ∧
      a ∉ (filter_addresses st mem value value_type).2.found_addresses) := by
  constructor
  · intro st mem value vt rs1 rs2 r search_bytes size hp hb hfail
    have hb' : ∀ s ∈ rs1 ++ rs2,
        s.BaseAddress + s.RegionSize < SCAN_ADDRESS_LIMIT := by
      intro s hs
      apply hb
      rcases List.mem_append.mp hs with hcase | hcase
      · exact List.mem_append.mpr (Or.inl hcase)
      · exact List.mem_append.mpr (Or.inr (List.mem_cons_of_mem r hcase))
    have hlim : (0 : Nat) < SCAN_ADDRESS_LIMIT := by decide
    have hr0 : regionHits st.process_handle mem search_bytes size r = [] := by
      unfold regionHits
      by_cases hread : regionReadable r
      · rw [if_pos hread, hfail]
      · rw [if_neg hread]
    unfold scan_memory
    rw [hp]
    simp only
    rw [scanRegions_eq_join _ _ _ _ _ _ hb hlim,
      scanRegions_eq_join _ _ _ _ _ _ hb' hlim]
    simp [hr0]
  · intro st mem value value_type a search_bytes size hp hfail
    unfold filter_addresses
    by_cases h : st.found_addresses = []
    · simp [h]
    · rw [if_neg h]
      refine ⟨by simp [hp], ?_⟩
      simp only [hp, List.mem_filter]
      rintro ⟨-, hpred⟩
      rw [hfail] at hpred
      simp at hpred

/-- C5 witness: a one-region scan whose read fails equals the empty scan, and
a candidate at an unreadable address is dropped by a successful filter. -/
theorem C5_partial_io_absorbed_witness :
    packValue (PyVal.int 0) "byte" = .ok [0] 1 ∧
    read_memory (some ()) (fun _ => none) 0 (min 4 CHUNK_CAP) = none ∧
    scan_memory ⟨some (), [], "int32"⟩ (fun _ => none)
        [⟨0, 4, MEM_COMMIT, PAGE_READWRITE⟩] (PyVal.int 0) "byte" =
      scan_memory ⟨some (), [], "int32"⟩ (fun _ => none) [] (PyVal.int 0)
        "byte" ∧
    5 ∉ (filter_addresses ⟨some (), [5], "int32"⟩ (fun _ => none)
        (PyVal.int 0) (some "byte")).2.found_addresses :=
  ⟨by decide, by decide,
    (C5_partial_io_absorbed.1 ⟨some (), [], "int32"⟩ (fun _ => none)
      (PyVal.int 0) "byte" [] [] ⟨0, 4, MEM_COMMIT, PAGE_READWRITE⟩ [0] 1
      (by decide) (by decide) (by decide)),
    (C5_partial_io_absorbed.2 ⟨some (), [5], "int32"⟩ (fun _ => none)
      (PyVal.int 0) (some "byte") 5 [0] 1 (by decide) (by decide)).2⟩

/-- C6: when a region is larger than the 10 MiB chunk cap, the scan reads
only the first cap-sized chunk (min(RegionSize, CHUNK_CAP) bytes from the
base), so every reported candidate lies inside the first CHUNK_CAP bytes of
the region, and the result does not depend on any byte at or beyond the cap:
two memories agreeing on the first CHUNK_CAP bytes scan identically. -/
theorem C6_chunk_cap_bound (st : EditorState) (mem mem' : Nat → Option Nat)
    (r : MEMORY_BASIC_INFORMATION) (value : PyVal) (vt : String)
    (search_bytes : List Nat) (size : Nat)
    (hp : packValue value vt = .ok search_bytes size)
    (hbig : CHUNK_CAP < r.RegionSize)
    (hagree : ∀ i, i < CHUNK_CAP →
      mem (r.BaseAddress + i) = mem' (r.BaseAddress + i)) :
    (∀ a ∈ (scan_memory st mem [r] value vt).2.found_addresses,
      r.BaseAddress ≤ a ∧ a < r.BaseAddress + CHUNK_CAP) ∧
    scan_memory st mem [r] value vt = scan_memory st mem' [r] value vt := by
  have hmin : min r.RegionSize CHUNK_CAP = CHUNK_CAP := min_eq_right hbig.le
  have hbound : ∀ a ∈ regionHits st.process_handle mem search_bytes size r,
      r.BaseAddress ≤ a ∧ a < r.BaseAddress + CHUNK_CAP := by
    intro a ha
    unfold regionHits at ha
    by_cases hr : regionReadable r
    · rw [if_pos hr] at ha
      cases hd : read_memory st.process_handle mem r.BaseAddress
          (min r.RegionSize CHUNK_CAP) with
      | none => rw [hd] at ha; simp at ha
      | some data =>
        rw [hd] at ha
        simp only [List.mem_map] at ha
        obtain ⟨offset, hoff, rfl⟩ := ha
        unfold searchOffsets at hoff
        rw [List.mem_filter, List.mem_range] at hoff
        have hlen : data.length = CHUNK_CAP := by
          unfold read_memory at hd
          cases hh : st.process_handle with
          | none => rw [hh] at hd; exact absurd hd (by simp)
          | some u =>
            rw [hh] at hd
            have := readBytesFrom_length mem r.BaseAddress _ data hd
            rw [hmin] at this
            exact this
        have := hoff.1
        constructor
        · omega
        · omega
    · rw [if_neg hr] at ha
      simp at ha
  have hread : read_memory st.process_handle mem r.BaseAddress
      (min r.RegionSize CHUNK_CAP) =
      read_memory st.process_handle mem' r.BaseAddress
        (min r.RegionSize CHUNK_CAP) := by
    unfold read_memory
    cases st.process_handle with
    | none => rfl
    | some u =>
      rw [hmin]
      exact readBytesFrom_congr mem mem' CHUNK_CAP r.BaseAddress hagree
  constructor
  · unfold scan_memory
    rw [hp]
    simp only [scanRegions,
      if_pos (by decide : (0 : Nat) < SCAN_ADDRESS_LIMIT), List.append_nil]
    simpa using hbound
  · unfold scan_memory
    rw [hp]
    simp only [scanRegions,
      if_pos (by decide : (0 : Nat) < SCAN_ADDRESS_LIMIT), List.append_nil]
    unfold regionHits
    rw [hread]

/-- C6 witness: the prefix bound applied to a concrete region one byte larger
than the cap, with the two memories taken equal so the agreement hypothesis
is trivial. -/
theorem C6_chunk_cap_bound_witness :
    packValue (PyVal.int 100) "int32" = .ok [100, 0, 0, 0] 4 ∧
    CHUNK_CAP < 10485761 ∧
    (∀ a ∈ (scan_memory ⟨some (), [], "int32"⟩ (fun _ => none)
        [⟨4096, 10485761, MEM_COMMIT, PAGE_READWRITE⟩] (PyVal.int 100)
        "int32").2.found_addresses,
      4096 ≤ a ∧ a < 4096 + CHUNK_CAP) :=
  ⟨by decide, by decide,
    (C6_chunk_cap_bound ⟨some (), [], "int32"⟩ (fun _ => none) (fun _ => none)
      ⟨4096, 10485761, MEM_COMMIT, PAGE_READWRITE⟩ (PyVal.int 100) "int32"
      [100, 0, 0, 0] 4 (by decide) (by decide) (fun _ _ => rfl)).1⟩

/-- C9: with wall time discretized into ticks of the 0.1 s sleep interval,
freeze_value performs exactly one write of the packed value per tick, at the
ticks before the duration expires that no earlier-or-equal tick cancelled;
once the duration elapses or a cancellation is observed, no further tick
writes occur; and the Boolean outcome of each write is discarded, so which
ticks write is independent of any write failing (only the per-tick outcomes
differ). -/
theorem C9_freeze_tick_schedule (st : EditorState)
    (wr wr' : Nat → Nat → List Nat → Bool) (cancel : Nat → Bool)
    (address : Nat) (value : PyVal) (value_type : Option String)
    (durationTicks : Nat) (data : List Nat) (size : Nat)
    (hp : packValue value (value_type.getD st.value_type) = .ok data size) :
    freeze_value st wr cancel address value value_type durationTicks =
      .ok ((freeze_ticks cancel durationTicks 0).map
        (fun i => (i, write_memory st (wr i) address data))) ∧
    (∀ i, i ∈ freeze_ticks cancel durationTicks 0 ↔
      i < durationTicks ∧ ∀ j, j ≤ i → cancel j = false) ∧
    (freeze_value st wr cancel address value value_type durationTicks).map
        (fun evs => evs.map Prod.fst) =
      (freeze_value st wr' cancel address value value_type durationTicks).map
        (fun evs => evs.map Prod.fst) := by
  refine ⟨?_, ?_, ?_⟩
  · unfold freeze_value
    simp only [hp]
  · intro i
    rw [mem_freeze_ticks]
    constructor
    · rintro ⟨h1, h2, h3⟩
      exact ⟨by omega, fun j hj => h3 j (by omega) hj⟩
    · rintro ⟨h1, h2⟩
      exact ⟨by omega, by omega, fun j _ hj2 => h2 j hj2⟩
  · unfold freeze_value
    simp only [hp]
    simp [Except.map, List.map_map, Function.comp]

/-- C9 witness: a five-tick freeze cancelled at tick 2 writes exactly at
ticks 0 and 1. -/
theorem C9_freeze_tick_schedule_witness :
    packValue (PyVal.int 1) "int32" = .ok [1, 0, 0, 0] 4 ∧
    freeze_value ⟨some (), [], "int32"⟩ (fun _ _ _ => true)
        (fun j => decide (2 ≤ j)) 64 (PyVal.int 1) none 5 =
      .ok ((freeze_ticks (fun j => decide (2 ≤ j)) 5 0).map
        (fun i => (i, write_memory ⟨some (), [], "int32"⟩
          ((fun _ _ _ => true) i) 64 [1, 0, 0, 0]))) :=
  ⟨by decide,
    (C9_freeze_tick_schedule ⟨some (), [], "int32"⟩ (fun _ _ _ => true)
      (fun _ _ _ => false) (fun j => decide (2 ≤ j)) 64 (PyVal.int 1) none 5
      [1, 0, 0, 0] 4 (by decide)).1⟩
